import Mathlib

/-!
Shallow embedding of the focusphone MDM protocol core
(src/backend/mdm/mdm_router.py, src/backend/mdm/apns.py,
src/backend/mdm/profile_builder.py, src/backend/database.py).

The persistent store is modelled as in-memory lists of records; each HTTP
handler becomes a pure function from a store state and a parsed request body
to a new store state and an abstract HTTP result.  Timestamps are naturals,
raw byte strings are lists of naturals, and property lists are a `PValue`
tree mirroring what `plistlib` parses.
-/

/-- Raw byte strings (Python `bytes`), one natural per byte. -/
abbrev Bytes := List Nat

/-- Parsed property-list values: the dictionaries `plistlib.loads` produces and
`plistlib.dumps` serialises. -/
inductive PValue where
  | str (s : String)
  | bytes (b : Bytes)
  | bool (b : Bool)
  | int (n : Nat)
  | arr (elems : List PValue)
  | dict (entries : List (String × PValue))

/-- Lower-case hexadecimal digit character for a value below 16. -/
def hexDigit (n : Nat) : Char :=
  if n < 10 then Char.ofNat (48 + n) else Char.ofNat (87 + n)

/-- Embedding of Python `bytes.hex()`: two lower-case hex digits per byte
(mdm_router.py:171 stores `token.hex()`). -/
def bytesToHex (b : Bytes) : String :=
  String.mk (b.foldr (fun byte acc => hexDigit (byte / 16 % 16) :: hexDigit (byte % 16) :: acc) [])

/-- Python truthiness of an optional string (`if not push_token`, `if command_uuid`):
`None` and the empty string are falsy. -/
def pyTruthyStr : Option String → Bool
  | none => false
  | some s => !(s == "")

/-- Python truthiness of an optional byte string (`if token`): `None` and empty
bytes are falsy. -/
def pyTruthyBytes : Option Bytes → Bool
  | none => false
  | some b => !b.isEmpty

/-- Replace the first element satisfying `p` by its image under `f`.  This is how
a SQLAlchemy `scalar_one_or_none()` result is mutated and committed: exactly the
row the query found is rewritten. -/
def updateFirst (p : α → Bool) (f : α → α) : List α → List α
  | [] => []
  | a :: as => if p a then f a :: as else a :: updateFirst p f as

/-- Row of the `devices` table (database.py:64-97).  Columns irrelevant to the
protocol core (model, os_version, serial, battery, location) are omitted; the
protocol handlers never read or write them. -/
structure Device where
  id : String
  udid : String
  name : String := ""
  push_token : Option String := none
  push_magic : Option String := none
  unlock_token : Option Bytes := none
  status : String := "pending"
  owner_id : Option String := none
  profile_id : Option String := none
  last_checkin : Nat := 0
deriving Repr, DecidableEq

/-- Row of the `mdm_commands` table (database.py:134-151).  The nullable
`payload` column holds the built command document. -/
structure MDMCommand where
  id : String
  command_uuid : String
  command_type : String := ""
  payload : Option PValue := none
  status : String := "pending"
  created_at : Nat := 0
  sent_at : Option Nat := none
  acknowledged_at : Option Nat := none
  error_message : Option String := none
  device_id : String

/-- Row of the `enrollment_tokens` table, exactly the mapped columns of
`EnrollmentToken` in database.py:154-173.  Note that the model defines neither
a `device_udid` nor a `last_accessed_at` column; see `enrollmentTokenColumns`. -/
structure EnrollmentToken where
  id : String
  token : String
  created_at : Nat := 0
  expires_at : Nat
  used_at : Option Nat := none
  is_used : Bool := false
  owner_id : String
  profile_id : Option String := none
deriving Repr, DecidableEq

/-- Row of the `profiles` table (database.py:100-131), restricted to the fields
the protocol core reads. -/
structure RestrictionProfile where
  id : String
  name : String
  description : String := ""
  allow_phone : Bool := true
  allow_messages : Bool := true
  allow_contacts : Bool := true
  allow_camera : Bool := false
  allow_photos : Bool := false
deriving Repr, DecidableEq

/-- The `allowed_bundle_ids` property of `RestrictionProfile`
(database.py:118-131). -/
def RestrictionProfile.allowed_bundle_ids (p : RestrictionProfile) : List String :=
  (if p.allow_phone then ["com.apple.mobilephone"] else []) ++
  (if p.allow_messages then ["com.apple.MobileSMS"] else []) ++
  (if p.allow_contacts then ["com.apple.MobileAddressBook"] else []) ++
  (if p.allow_camera then ["com.apple.camera"] else []) ++
  (if p.allow_photos then ["com.apple.mobileslideshow"] else [])

/-- The attribute names the `EnrollmentToken` class (database.py:154-173)
actually defines: its mapped columns, its relationships, and the `is_valid`
property.  The check-in handlers build queries against class attributes named
`last_accessed_at` and `device_udid`; neither appears in this list, so those
attribute accesses raise `AttributeError` in Python. -/
def enrollmentTokenColumns : List String :=
  ["id", "token", "created_at", "expires_at", "used_at", "is_used",
   "owner_id", "owner", "profile_id", "profile", "is_valid"]

/-- The whole persistent store visible to the protocol core. -/
structure StoreState where
  devices : List Device := []
  tokens : List EnrollmentToken := []
  commands : List MDMCommand := []

/-- The empty store. -/
def emptyStore : StoreState := {}

/-- Parsed body of a check-in request: the fields the check-in handlers read
via `plist.get` (mdm_router.py:83-84, 161-164, 246). -/
structure CheckinMsg where
  MessageType : Option String := none
  UDID : Option String := none
  PushMagic : Option String := none
  Token : Option Bytes := none
  UnlockToken : Option Bytes := none
deriving Repr, DecidableEq

/-- Parsed body of a command-endpoint request (mdm_router.py:285-287, 311).
`ErrorChain` entries are kept as the strings `str(entry)` produces. -/
structure MDMMsg where
  Status : Option String := none
  UDID : Option String := none
  CommandUUID : Option String := none
  ErrorChain : Option (List String) := none
deriving Repr, DecidableEq

/-- Abstract HTTP outcome of a check-in request. -/
inductive CheckinResult where
  | emptyAck      -- 200 with an empty plist body (mdm_router.py:153-156 etc.)
  | okNoBody      -- plain 200 for an unknown MessageType (mdm_router.py:99)
  | badRequest    -- HTTP 400, unparseable body (mdm_router.py:81)
  | serverError   -- HTTP 500 from an uncaught exception
deriving Repr, DecidableEq

/-- Abstract HTTP outcome of a command-endpoint request. -/
inductive MDMResult where
  | commandResp (payload : PValue)   -- the delivered command document
  | emptyAck
  | badRequest

/-- Lookup of a device row by the optional UDID taken from the request body
(`select(Device).where(Device.udid == udid)` + `scalar_one_or_none`).  The
`udid` column is non-nullable and unique-indexed, so a `None` UDID matches no
row and at most one row can match. -/
def findDevice (st : StoreState) (udid : Option String) : Option Device :=
  match udid with
  | none => none
  | some u => st.devices.find? (fun d => d.udid == u)

/-- Embedding of `handle_authenticate` (mdm_router.py:102-156).  The device
lookup at lines 107-108 is read-only; then the correlation query at lines
114-122 evaluates the class attribute `EnrollmentToken.last_accessed_at`
(and subsequently `device_udid`), which `EnrollmentToken` (database.py:154-173,
see `enrollmentTokenColumns`) does not define.  Python therefore raises
`AttributeError` while the query expression is being built — before any write
or commit — and FastAPI answers HTTP 500 with the store unchanged.  Device
creation and token linking at lines 125-150 are unreachable. -/
def handle_authenticate (st : StoreState) (msg : CheckinMsg) : StoreState × CheckinResult :=
  let _device := findDevice st msg.UDID   -- read-only lookup at lines 107-108
  if "last_accessed_at" ∈ enrollmentTokenColumns then
    -- never reached: "last_accessed_at" is not among `enrollmentTokenColumns`
    (st, .emptyAck)
  else
    (st, .serverError)

/-- Embedding of `handle_token_update` (mdm_router.py:159-205).  When the UDID
names a device, its push credentials, unlock token, status and last check-in
are updated and committed (lines 169-175).  The follow-up query at lines
178-182 then evaluates `EnrollmentToken.device_udid`, an attribute the model
does not define (see `enrollmentTokenColumns`), so Python raises
`AttributeError`: the device update survives (already committed) but the token
is never consumed, no command is enqueued, no push is attempted, and the
response is HTTP 500.  With no matching device the handler skips the whole
block and returns the empty acknowledgment. -/
def handle_token_update (st : StoreState) (now : Nat) (msg : CheckinMsg) :
    StoreState × CheckinResult :=
  match findDevice st msg.UDID with
  | none => (st, .emptyAck)
  | some d =>
    let st1 : StoreState :=
      { st with devices := updateFirst (fun x => x.udid == d.udid) (fun x =>
          { x with
              push_magic := msg.PushMagic,
              push_token :=
                match msg.Token with
                | some b => if b.isEmpty then none else some (bytesToHex b)
                | none => none,
              unlock_token := msg.UnlockToken,
              status := "enrolled",
              last_checkin := now }) st.devices }
    if "device_udid" ∈ enrollmentTokenColumns then
      -- never reached: "device_udid" is not among `enrollmentTokenColumns`
      (st1, .emptyAck)
    else
      (st1, .serverError)

/-- Embedding of `handle_checkout` (mdm_router.py:244-260): the device (when
found) gets status `removed` and both push credentials cleared; the response is
always the empty acknowledgment. -/
def handle_checkout (st : StoreState) (msg : CheckinMsg) : StoreState × CheckinResult :=
  match findDevice st msg.UDID with
  | none => (st, .emptyAck)
  | some d =>
    ({ st with devices := updateFirst (fun x => x.udid == d.udid) (fun x =>
        { x with status := "removed", push_token := none, push_magic := none }) st.devices },
     .emptyAck)

/-- Embedding of the check-in endpoint `mdm_checkin` (mdm_router.py:61-99).
A body that does not parse as a plist is rejected with HTTP 400 before any
store access; otherwise the handler dispatches on `MessageType`, answering a
plain 200 for unknown kinds. -/
def mdm_checkin (st : StoreState) (now : Nat) (body : Option CheckinMsg) :
    StoreState × CheckinResult :=
  match body with
  | none => (st, .badRequest)
  | some msg =>
    if msg.MessageType == some "Authenticate" then handle_authenticate st msg
    else if msg.MessageType == some "TokenUpdate" then handle_token_update st now msg
    else if msg.MessageType == some "CheckOut" then handle_checkout st msg
    else (st, .okNoBody)

/-- Touch of `device.last_checkin` (mdm_router.py:292-296), committed at line
318 together with the command-status update. -/
def touchCheckin (st : StoreState) (now : Nat) (udid : Option String) : StoreState :=
  match findDevice st udid with
  | none => st
  | some d =>
    let devs := updateFirst (fun x => x.udid == d.udid)
      (fun x => { x with last_checkin := now }) st.devices
    { st with devices := devs }

/-- Status-report transition applied to the referenced command
(mdm_router.py:306-316): `Acknowledged` → `acknowledged` (stamping
`acknowledged_at`), `Error` → `failed` taking the error text from the first
entry of a non-empty `ErrorChain`, `NotNow` → `pending`, anything else leaves
the row unchanged. -/
def applyReport (now : Nat) (status : Option String) (errorChain : Option (List String))
    (c : MDMCommand) : MDMCommand :=
  if status == some "Acknowledged" then
    { c with status := "acknowledged", acknowledged_at := some now }
  else if status == some "Error" then
    { c with status := "failed",
             error_message :=
               match errorChain with
               | some (e :: _) => some e
               | _ => c.error_message }
  else if status == some "NotNow" then
    { c with status := "pending" }
  else c

/-- The command-response phase of the command endpoint (mdm_router.py:299-318):
when a truthy `CommandUUID` names a known command, rewrite that row with
`applyReport`; an unknown or absent UUID is a no-op. -/
def reportPhase (st : StoreState) (now : Nat) (msg : MDMMsg) : StoreState :=
  match msg.CommandUUID with
  | none => st
  | some cu =>
    if cu == "" then st
    else
      match st.commands.find? (fun c => c.command_uuid == cu) with
      | none => st
      | some _ =>
        let cmds := updateFirst (fun c => c.command_uuid == cu)
          (applyReport now msg.Status msg.ErrorChain) st.commands
        { st with commands := cmds }

/-- Whether a command row belongs to the given device and is `pending`
(the two `where` clauses of the query at mdm_router.py:322-327). -/
def isPendingFor (deviceId : String) (c : MDMCommand) : Bool :=
  c.device_id == deviceId && c.status == "pending"

/-- Keep the command created earlier; on a tie keep the left (earlier-listed)
one.  Folding this over the pending rows models `ORDER BY created_at LIMIT 1`. -/
def olderOf (a b : MDMCommand) : MDMCommand :=
  if b.created_at < a.created_at then b else a

/-- The oldest `pending` command of a device (mdm_router.py:322-329):
the row with minimal `created_at` among the device's pending commands,
the first-listed one on ties. -/
def oldestPending (st : StoreState) (deviceId : String) : Option MDMCommand :=
  match st.commands.filter (isPendingFor deviceId) with
  | [] => none
  | c :: cs => some (cs.foldl olderOf c)

/-- The delivery phase of the command endpoint (mdm_router.py:320-346): when
the device was found and the reported status is `Idle` or `Acknowledged`, fetch
the oldest pending command; if it exists and its payload is non-null, mark it
`sent`, stamp `sent_at`, and answer with its payload; otherwise answer with the
empty acknowledgment. -/
def deliverPhase (st : StoreState) (now : Nat) (devOpt : Option Device)
    (status : Option String) : StoreState × MDMResult :=
  match devOpt with
  | none => (st, .emptyAck)
  | some d =>
    if status == some "Idle" || status == some "Acknowledged" then
      match oldestPending st d.id with
      | none => (st, .emptyAck)
      | some c =>
        match c.payload with
        | none => (st, .emptyAck)
        | some p =>
          let cmds := updateFirst (fun x => x.command_uuid == c.command_uuid)
            (fun x => { x with status := "sent", sent_at := some now }) st.commands
          ({ st with commands := cmds }, .commandResp p)
    else (st, .emptyAck)

/-- Embedding of the command endpoint `mdm_server` (mdm_router.py:265-346):
parse (400 on failure), touch the device's last check-in, apply the status
report, then run the delivery phase. -/
def mdm_server (st : StoreState) (now : Nat) (body : Option MDMMsg) :
    StoreState × MDMResult :=
  match body with
  | none => (st, .badRequest)
  | some msg =>
    let st2 := reportPhase (touchCheckin st now msg.UDID) now msg
    deliverPhase st2 now (findDevice st msg.UDID) msg.Status

/-- Environment of the push notifier: whether the certificate file and the key
file resolved by `_get_cert_paths` exist (apns.py:119-124). -/
structure PushEnv where
  certExists : Bool
  keyExists : Bool
deriving Repr, DecidableEq

/-- Outcome of the `try` section of `send_push_notification` (apns.py:140-159):
the HTTP response status code, or an exception (SSL-context setup or transport)
caught by the `except` clause. -/
inductive PushOutcome where
  | response (statusCode : Nat)
  | transportError
deriving Repr, DecidableEq

/-- Result of a push attempt: the boolean the function returns, plus whether
execution reached the network section (the `try` block) at all — the
precondition checks return before it. -/
structure PushResult where
  success : Bool
  attemptedSend : Bool
deriving Repr, DecidableEq

/-- Embedding of `send_push_notification` (apns.py:96-159): a falsy push token
or push magic, or a missing certificate or key file, fails fast without
reaching the network section; otherwise only an HTTP 200 response counts as
success, and any exception is caught and reported as failure. -/
def send_push_notification (env : PushEnv) (outcome : PushOutcome)
    (push_token push_magic : Option String) : PushResult :=
  if !(pyTruthyStr push_token) || !(pyTruthyStr push_magic) then ⟨false, false⟩
  else if !env.certExists then ⟨false, false⟩
  else if !env.keyExists then ⟨false, false⟩
  else
    match outcome with
    | .response code => ⟨code == 200, true⟩
    | .transportError => ⟨false, true⟩

/-- Default organization name (profile_builder.py:13). -/
def ORG_NAME : String := "FocusPhone"

/-- Default organization identifier (profile_builder.py:14). -/
def ORG_IDENTIFIER : String := "com.focusphone"

/-- Embedding of `build_restriction_profile` (profile_builder.py:88-158).  The
two freshly drawn UUIDs are passed in as parameters; the rest is the literal
document structure.  The built document is kept as its parsed `PValue` tree
rather than the `plistlib.dumps` byte serialisation. -/
def build_restriction_profile (name description : String)
    (allowed_bundle_ids : List String)
    (profile_uuid restriction_payload_uuid : String) : PValue :=
  let restriction_payload : PValue := .dict
    [("PayloadType", .str "com.apple.applicationaccess"),
     ("PayloadVersion", .int 1),
     ("PayloadIdentifier", .str (ORG_IDENTIFIER ++ ".restriction")),
     ("PayloadUUID", .str restriction_payload_uuid),
     ("PayloadDisplayName", .str "App Restrictions"),
     ("allowListedAppBundleIDs", .arr (allowed_bundle_ids.map .str)),
     ("allowAppInstallation", .bool false),
     ("allowAppRemoval", .bool false),
     ("allowInAppPurchases", .bool false),
     ("allowSafari", .bool false),
     ("allowCamera", .bool (allowed_bundle_ids.contains "com.apple.camera")),
     ("allowVideoConferencing", .bool false),
     ("allowExplicitContent", .bool false),
     ("allowGameCenter", .bool false),
     ("allowMultiplayerGaming", .bool false),
     ("allowAddingGameCenterFriends", .bool false),
     ("allowYouTube", .bool false),
     ("allowiTunes", .bool false),
     ("allowBookstore", .bool false),
     ("allowPodcasts", .bool false),
     ("allowNews", .bool false),
     ("allowMusicService", .bool false),
     ("allowRadioService", .bool false),
     ("allowUIConfigurationProfileInstallation", .bool false),
     ("allowEnterpriseAppTrust", .bool false),
     ("allowVPNCreation", .bool false),
     ("allowGlobalBackgroundFetchWhenRoaming", .bool false),
     ("allowEraseContentAndSettings", .bool false),
     ("allowEnablingRestrictions", .bool false),
     ("allowFilesNetworkDriveAccess", .bool false),
     ("allowFilesUSBDriveAccess", .bool false)]
  .dict
    [("PayloadType", .str "Configuration"),
     ("PayloadVersion", .int 1),
     ("PayloadIdentifier", .str (ORG_IDENTIFIER ++ ".restriction." ++ profile_uuid.take 8)),
     ("PayloadUUID", .str profile_uuid),
     ("PayloadDisplayName", .str name),
     ("PayloadDescription", .str description),
     ("PayloadOrganization", .str ORG_NAME),
     ("PayloadRemovalDisallowed", .bool true),
     ("PayloadContent", .arr [restriction_payload])]

/-- Embedding of `build_install_profile_command` (profile_builder.py:161-173):
the command envelope embeds the given command identifier under `CommandUUID`
and wraps the built profile document under `Command.Payload`. -/
def build_install_profile_command (command_uuid : String) (profile_data : PValue) : PValue :=
  .dict
    [("CommandUUID", .str command_uuid),
     ("Command", .dict
        [("RequestType", .str "InstallProfile"),
         ("Payload", profile_data)])]

/-- Embedding of `queue_restriction_profile` (mdm_router.py:208-241): build the
restriction document and the install-profile command envelope, append a
`pending` command row keyed by the fresh command identifier, and then — only
when the device carries both push credentials — attempt one push notification,
whose exceptions are swallowed and whose outcome is returned alongside the new
store (`none` when the push was not attempted).  All store writes happen before
the push attempt. -/
def queue_restriction_profile (st : StoreState) (device : Device)
    (profile : RestrictionProfile) (cmdRowId command_uuid profile_uuid payload_uuid : String)
    (now : Nat) (env : PushEnv) (outcome : PushOutcome) :
    StoreState × Option PushResult :=
  let descr := if profile.description == "" then "Managed by " ++ profile.name
               else profile.description
  let doc := build_restriction_profile profile.name descr profile.allowed_bundle_ids
    profile_uuid payload_uuid
  let command_payload := build_install_profile_command command_uuid doc
  let command : MDMCommand :=
    { id := cmdRowId, command_uuid := command_uuid, command_type := "InstallProfile",
      payload := some command_payload, status := "pending", created_at := now,
      device_id := device.id }
  let st1 := { st with commands := st.commands ++ [command] }
  let push :=
    if pyTruthyStr device.push_token && pyTruthyStr device.push_magic then
      some (send_push_notification env outcome device.push_token device.push_magic)
    else none
  (st1, push)

/-- One inbound protocol request: a check-in or a command-endpoint call, with
its arrival time and parsed body (`none` for an unparseable body). -/
inductive ProtocolRequest where
  | checkinReq (now : Nat) (body : Option CheckinMsg)
  | commandReq (now : Nat) (body : Option MDMMsg)

/-- The store after serving one request (responses discarded). -/
def runStep (st : StoreState) : ProtocolRequest → StoreState
  | .checkinReq now b => (mdm_checkin st now b).1
  | .commandReq now b => (mdm_server st now b).1

/-- The store after serving a sequence of requests in order. -/
def runTrace : StoreState → List ProtocolRequest → StoreState
  | st, [] => st
  | st, r :: rs => runTrace (runStep st r) rs

/-- The push-credentials invariant of the spec: each device has its push token
and its push magic either both present or both absent. -/
def pushCredsConsistent (st : StoreState) : Prop :=
  ∀ d ∈ st.devices, d.push_token.isSome = d.push_magic.isSome

/-- A request is credential-balanced when, if it is a parsed `TokenUpdate`
check-in, it carries a push magic exactly when it carries truthy (non-empty)
raw token bytes.  Protocol-conformant `TokenUpdate` messages carry both. -/
def credsBalanced : ProtocolRequest → Bool
  | .checkinReq _ (some m) =>
      !(m.MessageType == some "TokenUpdate") || (m.PushMagic.isSome == pyTruthyBytes m.Token)
  | _ => true

/-- Pairwise distinctness of the `command_uuid` key, which the store enforces
through the unique index on `mdm_commands.command_uuid` (database.py:138). -/
def distinctUuids (l : List MDMCommand) : Prop :=
  l.Pairwise (fun a b => a.command_uuid ≠ b.command_uuid)

/-- Sample device used by concrete evaluations. -/
def cxDevice : Device := { id := "dev-1", udid := "UDID-1", name := "Device-1" }

/-- Sample pending command, the older of the two. -/
def cxCmdA : MDMCommand :=
  { id := "row-a", command_uuid := "A", command_type := "InstallProfile",
    payload := some (.str "payload-a"), status := "pending", created_at := 0,
    device_id := "dev-1" }

/-- Sample pending command, the newer of the two. -/
def cxCmdB : MDMCommand :=
  { id := "row-b", command_uuid := "B", command_type := "InstallProfile",
    payload := some (.str "payload-b"), status := "pending", created_at := 1,
    device_id := "dev-1" }

/-- Store with one device and two pending commands. -/
def cxStore : StoreState := { devices := [cxDevice], commands := [cxCmdA, cxCmdB] }

/-- A plain idle poll from the sample device, carrying no command report. -/
def idlePoll : MDMMsg := { Status := some "Idle", UDID := some "UDID-1" }

/-- Authenticate check-in for UDID AAAA. -/
def authMsgAAAA : CheckinMsg := { MessageType := some "Authenticate", UDID := some "AAAA" }

/-- Fresh, unexpired, unused enrollment token awaiting correlation. -/
def c2Token : EnrollmentToken :=
  { id := "tok-2", token := "enroll-2", created_at := 0, expires_at := 3600,
    owner_id := "user-2", profile_id := some "prof-2" }

/-- Store holding only the fresh enrollment token. -/
def c2Store : StoreState := { tokens := [c2Token] }

/-- Pending device about to complete enrollment. -/
def c3Device : Device := { id := "dev-3", udid := "BBBB", status := "pending" }

/-- Unused enrollment token carrying an assigned profile. -/
def c3Token : EnrollmentToken :=
  { id := "tok-3", token := "enroll-3", expires_at := 3600,
    owner_id := "user-3", profile_id := some "prof-3" }

/-- Store with the pending device and the unused token. -/
def c3Store : StoreState := { devices := [c3Device], tokens := [c3Token] }

/-- TokenUpdate for the pending device: push token bytes 0xab 0xcd, magic m1. -/
def c3Msg : CheckinMsg :=
  { MessageType := some "TokenUpdate", UDID := some "BBBB",
    PushMagic := some "m1", Token := some [171, 205] }

/-- Device with both push credentials absent. -/
def c7Device : Device := { id := "dev-7", udid := "UDID-7" }

/-- Store holding only that device. -/
def c7Store : StoreState := { devices := [c7Device] }

/-- TokenUpdate carrying a push magic but no raw token bytes. -/
def c7BadMsg : CheckinMsg :=
  { MessageType := some "TokenUpdate", UDID := some "UDID-7", PushMagic := some "m1" }

/-- Credential-balanced TokenUpdate carrying both push magic and token bytes. -/
def c7GoodMsg : CheckinMsg :=
  { MessageType := some "TokenUpdate", UDID := some "UDID-7",
    PushMagic := some "m2", Token := some [1, 2] }

/-- Sample restriction profile. -/
def c8Profile : RestrictionProfile := { id := "prof-8", name := "Focus" }

/-- Sample enrolled device holding push credentials. -/
def c8Device : Device :=
  { id := "dev-8", udid := "UDID-8", push_token := some "abcd", push_magic := some "m8",
    status := "enrolled" }

/-! ## Helper lemmas about the store operations -/

/-- Membership in `updateFirst`: every element of the result is an original
element or the image of an original element satisfying the predicate. -/
theorem mem_updateFirst {p : α → Bool} {f : α → α} {l : List α} {a : α}
    (h : a ∈ updateFirst p f l) : a ∈ l ∨ ∃ b ∈ l, p b = true ∧ a = f b := by
  induction l with
  | nil => simp [updateFirst] at h
  | cons x xs ih =>
    by_cases hx : p x
    · simp only [updateFirst, hx, if_pos] at h
      rcases List.mem_cons.mp h with h | h
      · exact Or.inr ⟨x, List.mem_cons_self x xs, hx, h⟩
      · exact Or.inl (List.mem_cons_of_mem _ h)
    · simp only [updateFirst, hx, if_neg, Bool.false_eq_true, not_false_iff] at h
      rcases List.mem_cons.mp h with h | h
      · exact Or.inl (h ▸ List.mem_cons_self x xs)
      · rcases ih h with h' | ⟨b, hb, hpb, rfl⟩
        · exact Or.inl (List.mem_cons_of_mem _ h')
        · exact Or.inr ⟨b, List.mem_cons_of_mem _ hb, hpb, rfl⟩

/-- Decomposition of `updateFirst` around the row `find?` locates. -/
theorem updateFirst_decomp {p : α → Bool} (f : α → α) {l : List α} {a : α}
    (h : l.find? p = some a) :
    ∃ l₁ l₂, l = l₁ ++ a :: l₂ ∧ (∀ x ∈ l₁, p x = false) ∧
      updateFirst p f l = l₁ ++ f a :: l₂ := by
  induction l with
  | nil => simp [List.find?] at h
  | cons x xs ih =>
    by_cases hx : p x
    · rw [List.find?_cons_of_pos _ hx, Option.some_inj] at h
      subst h
      exact ⟨[], xs, rfl, by simp, by simp [updateFirst, hx]⟩
    · rw [List.find?_cons_of_neg _ hx] at h
      obtain ⟨l₁, l₂, rfl, hl₁, hu⟩ := ih h
      refine ⟨x :: l₁, l₂, rfl, ?_, ?_⟩
      · intro y hy
        rcases List.mem_cons.mp hy with rfl | hy
        · exact Bool.of_not_eq_true hx
        · exact hl₁ y hy
      · simp [updateFirst, hx, hu]

/-- Searching with the same predicate after `updateFirst` finds the image of
the original row, provided `f` preserves the predicate. -/
theorem find?_updateFirst_same {p : α → Bool} {f : α → α} (hf : ∀ a, p (f a) = p a)
    (l : List α) : (updateFirst p f l).find? p = (l.find? p).map f := by
  induction l with
  | nil => simp [updateFirst]
  | cons x xs ih =>
    by_cases hx : p x
    · simp only [updateFirst, hx, if_pos]
      rw [List.find?_cons_of_pos _ ((hf x).trans hx), List.find?_cons_of_pos _ hx]
      rfl
    · simp only [updateFirst, hx, if_neg, Bool.false_eq_true, not_false_iff]
      rw [List.find?_cons_of_neg _ hx, List.find?_cons_of_neg _ hx, ih]

/-- Searching with a predicate disjoint from the update predicate is unaffected
by `updateFirst`. -/
theorem find?_updateFirst_disjoint {p q : α → Bool} {f : α → α}
    (hq : ∀ a, p a = true → q a = false) (hfq : ∀ a, p a = true → q (f a) = false)
    (l : List α) : (updateFirst p f l).find? q = l.find? q := by
  induction l with
  | nil => rfl
  | cons x xs ih =>
    by_cases hx : p x
    · simp only [updateFirst, hx, if_pos]
      rw [List.find?_cons_of_neg _ (by simp [hfq x hx]),
          List.find?_cons_of_neg _ (by simp [hq x hx])]
    · simp only [updateFirst, hx, if_neg, Bool.false_eq_true, not_false_iff]
      by_cases hqx : q x
      · rw [List.find?_cons_of_pos _ hqx, List.find?_cons_of_pos _ hqx]
      · rw [List.find?_cons_of_neg _ hqx, List.find?_cons_of_neg _ hqx, ih]

/-- The fold of `olderOf` never exceeds any candidate's creation time. -/
theorem foldl_olderOf_le (l : List MDMCommand) (a : MDMCommand) :
    ∀ b ∈ a :: l, (l.foldl olderOf a).created_at ≤ b.created_at := by
  induction l generalizing a with
  | nil =>
    intro b hb
    rcases List.mem_cons.mp hb with rfl | hb
    · exact Nat.le_refl _
    · simp at hb
  | cons x xs ih =>
    intro b hb
    have hseed : ∀ c ∈ (olderOf a x) :: xs, ((x :: xs).foldl olderOf a).created_at ≤ c.created_at := by
      simpa [List.foldl_cons] using ih (olderOf a x)
    have holder_a : (olderOf a x).created_at ≤ a.created_at := by
      unfold olderOf
      split
      · omega
      · exact Nat.le_refl _
    have holder_x : (olderOf a x).created_at ≤ x.created_at := by
      unfold olderOf
      split
      · exact Nat.le_refl _
      · omega
    have hhead := hseed (olderOf a x) (List.mem_cons_self _ _)
    rcases List.mem_cons.mp hb with rfl | hb
    · exact Nat.le_trans hhead holder_a
    · rcases List.mem_cons.mp hb with rfl | hb
      · exact Nat.le_trans hhead holder_x
      · exact hseed b (List.mem_cons_of_mem _ hb)

/-- The fold of `olderOf` returns one of the candidates. -/
theorem foldl_olderOf_mem (l : List MDMCommand) (a : MDMCommand) :
    l.foldl olderOf a ∈ a :: l := by
  induction l generalizing a with
  | nil => exact List.mem_cons_self _ _
  | cons x xs ih =>
    have h := ih (olderOf a x)
    rw [List.foldl_cons]
    rcases List.mem_cons.mp h with he | hm
    · rw [he]
      unfold olderOf
      split
      · exact List.mem_cons_of_mem _ (List.mem_cons_self _ _)
      · exact List.mem_cons_self _ _
    · exact List.mem_cons_of_mem _ (List.mem_cons_of_mem _ hm)

/-- When one candidate is strictly older than every other candidate (up to
equality of rows), the fold of `olderOf` returns it. -/
theorem foldl_olderOf_eq_of_strict (l : List MDMCommand) (a c : MDMCommand)
    (hmem : c ∈ a :: l)
    (hmin : ∀ b ∈ a :: l, b = c ∨ c.created_at < b.created_at) :
    l.foldl olderOf a = c := by
  induction l generalizing a with
  | nil =>
    rcases List.mem_cons.mp hmem with rfl | h
    · rfl
    · simp at h
  | cons x xs ih =>
    rw [List.foldl_cons]
    have hseedmin : ∀ b ∈ (olderOf a x) :: xs, b = c ∨ c.created_at < b.created_at := by
      intro b hb
      rcases List.mem_cons.mp hb with rfl | hb
      · unfold olderOf
        split
        · exact hmin x (List.mem_cons_of_mem _ (List.mem_cons_self _ _))
        · exact hmin a (List.mem_cons_self _ _)
      · exact hmin b (List.mem_cons_of_mem _ (List.mem_cons_of_mem _ hb))
    have hseedmem : c ∈ (olderOf a x) :: xs := by
      rcases List.mem_cons.mp hmem with rfl | hmem'
      · -- c = a
        rcases hmin x (List.mem_cons_of_mem _ (List.mem_cons_self _ _)) with rfl | hlt
        · unfold olderOf
          split
          · exact List.mem_cons_self _ _
          · exact List.mem_cons_self _ _
        · have : olderOf c x = c := by
            unfold olderOf
            rw [if_neg (by omega)]
          rw [this]
          exact List.mem_cons_self _ _
      · rcases List.mem_cons.mp hmem' with rfl | hmem''
        · -- c = x
          rcases hmin a (List.mem_cons_self _ _) with rfl | hlt
          · unfold olderOf
            split
            · exact List.mem_cons_self _ _
            · exact List.mem_cons_self _ _
          · have : olderOf a c = c := by
              unfold olderOf
              rw [if_pos hlt]
            rw [this]
            exact List.mem_cons_self _ _
        · exact List.mem_cons_of_mem _ hmem''
    exact ih (olderOf a x) hseedmem hseedmin

/-- Soundness of `oldestPending`: the returned row belongs to the store, is a
pending row of the device, and is no newer than any other such row. -/
theorem oldestPending_spec {st : StoreState} {did : String} {c : MDMCommand}
    (h : oldestPending st did = some c) :
    c ∈ st.commands ∧ isPendingFor did c = true ∧
      ∀ c' ∈ st.commands, isPendingFor did c' = true → c.created_at ≤ c'.created_at := by
  unfold oldestPending at h
  cases hf : st.commands.filter (isPendingFor did) with
  | nil => rw [hf] at h; cases h
  | cons x xs =>
    rw [hf, Option.some_inj] at h
    have hmem : c ∈ x :: xs := h ▸ foldl_olderOf_mem xs x
    have hcf : c ∈ st.commands.filter (isPendingFor did) := hf ▸ hmem
    have hc := List.mem_filter.mp hcf
    refine ⟨hc.1, hc.2, ?_⟩
    intro c' hc' hp'
    have : c' ∈ x :: xs := hf ▸ List.mem_filter.mpr ⟨hc', hp'⟩
    exact h ▸ foldl_olderOf_le xs x c' this

/-- Completeness of `oldestPending` for a strictly oldest pending row. -/
theorem oldestPending_eq_of_strict {st : StoreState} {did : String} {c : MDMCommand}
    (hc : c ∈ st.commands) (hp : isPendingFor did c = true)
    (hmin : ∀ c' ∈ st.commands, isPendingFor did c' = true →
      c' = c ∨ c.created_at < c'.created_at) :
    oldestPending st did = some c := by
  unfold oldestPending
  have hcf : c ∈ st.commands.filter (isPendingFor did) := List.mem_filter.mpr ⟨hc, hp⟩
  cases hf : st.commands.filter (isPendingFor did) with
  | nil => rw [hf] at hcf; simp at hcf
  | cons x xs =>
    rw [hf] at hcf
    rw [Option.some_inj]
    refine foldl_olderOf_eq_of_strict xs x c hcf ?_
    intro b hb
    have : b ∈ st.commands.filter (isPendingFor did) := hf ▸ hb
    have hbm := List.mem_filter.mp this
    exact hmin b hbm.1 hbm.2

/-- The report phase never touches device rows. -/
theorem reportPhase_devices (st : StoreState) (now : Nat) (msg : MDMMsg) :
    (reportPhase st now msg).devices = st.devices := by
  unfold reportPhase
  cases msg.CommandUUID with
  | none => rfl
  | some cu =>
    by_cases h : cu == ""
    · simp [h]
    · simp only [h, Bool.false_eq_true, if_neg, not_false_iff]
      cases st.commands.find? (fun c => c.command_uuid == cu) <;> rfl

/-- The report phase never touches token rows. -/
theorem reportPhase_tokens (st : StoreState) (now : Nat) (msg : MDMMsg) :
    (reportPhase st now msg).tokens = st.tokens := by
  unfold reportPhase
  cases msg.CommandUUID with
  | none => rfl
  | some cu =>
    by_cases h : cu == ""
    · simp [h]
    · simp only [h, Bool.false_eq_true, if_neg, not_false_iff]
      cases st.commands.find? (fun c => c.command_uuid == cu) <;> rfl

/-- The delivery phase never touches device rows. -/
theorem deliverPhase_devices (st : StoreState) (now : Nat) (devOpt : Option Device)
    (status : Option String) : ((deliverPhase st now devOpt status).1).devices = st.devices := by
  unfold deliverPhase
  cases devOpt with
  | none => rfl
  | some d =>
    by_cases h : (status == some "Idle" || status == some "Acknowledged") = true
    · simp only [h, if_pos]
      cases hop : oldestPending st d.id with
      | none => rfl
      | some c =>
        dsimp only
        cases c.payload <;> rfl
    · simp only [h, if_neg, Bool.false_eq_true, not_false_iff]

/-- The delivery phase never touches token rows. -/
theorem deliverPhase_tokens (st : StoreState) (now : Nat) (devOpt : Option Device)
    (status : Option String) : ((deliverPhase st now devOpt status).1).tokens = st.tokens := by
  unfold deliverPhase
  cases devOpt with
  | none => rfl
  | some d =>
    by_cases h : (status == some "Idle" || status == some "Acknowledged") = true
    · simp only [h, if_pos]
      cases hop : oldestPending st d.id with
      | none => rfl
      | some c =>
        dsimp only
        cases c.payload <;> rfl
    · simp only [h, if_neg, Bool.false_eq_true, not_false_iff]

/-- The command endpoint leaves device rows exactly as the check-in touch left
them. -/
theorem mdm_server_devices (st : StoreState) (now : Nat) (msg : MDMMsg) :
    ((mdm_server st now (some msg)).1).devices = (touchCheckin st now msg.UDID).devices := by
  unfold mdm_server
  rw [deliverPhase_devices, reportPhase_devices]

/-- Dispatch of the check-in endpoint to the authenticate handler. -/
theorem mdm_checkin_dispatch_auth (st : StoreState) (now : Nat) (msg : CheckinMsg)
    (hmt : msg.MessageType = some "Authenticate") :
    mdm_checkin st now (some msg) = handle_authenticate st msg := by
  unfold mdm_checkin
  dsimp only
  rw [hmt]
  rfl

/-- Dispatch of the check-in endpoint to the token-update handler. -/
theorem mdm_checkin_dispatch_tu (st : StoreState) (now : Nat) (msg : CheckinMsg)
    (hmt : msg.MessageType = some "TokenUpdate") :
    mdm_checkin st now (some msg) = handle_token_update st now msg := by
  unfold mdm_checkin
  dsimp only
  rw [hmt]
  rfl

/-- Dispatch of the check-in endpoint to the checkout handler. -/
theorem mdm_checkin_dispatch_co (st : StoreState) (now : Nat) (msg : CheckinMsg)
    (hmt : msg.MessageType = some "CheckOut") :
    mdm_checkin st now (some msg) = handle_checkout st msg := by
  unfold mdm_checkin
  dsimp only
  rw [hmt]
  rfl

/-- The check-in touch never changes command rows. -/
theorem touchCheckin_commands (st : StoreState) (now : Nat) (udid : Option String) :
    (touchCheckin st now udid).commands = st.commands := by
  unfold touchCheckin
  split <;> rfl

/-- The check-in touch never changes token rows. -/
theorem touchCheckin_tokens (st : StoreState) (now : Nat) (udid : Option String) :
    (touchCheckin st now udid).tokens = st.tokens := by
  unfold touchCheckin
  split <;> rfl

/-- A status report never produces a row in status `sent`: if the rewritten row
reads `sent`, the report left it unchanged. -/
theorem applyReport_sent_eq {now : Nat} {s : Option String} {ec : Option (List String)}
    {b : MDMCommand} (h : (applyReport now s ec b).status = "sent") :
    applyReport now s ec b = b := by
  unfold applyReport at h ⊢
  split_ifs at h ⊢ with h1 h2 h3
  · simp at h
  · simp at h
  · simp at h
  · rfl

/-- Any `sent` row surviving the report phase was already present before it. -/
theorem reportPhase_sent_mem {st : StoreState} {now : Nat} {msg : MDMMsg} {c' : MDMCommand}
    (hc' : c' ∈ (reportPhase st now msg).commands) (hsent : c'.status = "sent") :
    c' ∈ st.commands := by
  unfold reportPhase at hc'
  cases hcu : msg.CommandUUID with
  | none => rw [hcu] at hc'; exact hc'
  | some cu =>
    rw [hcu] at hc'
    dsimp only at hc'
    by_cases he : cu == ""
    · rw [if_pos he] at hc'; exact hc'
    · rw [if_neg he] at hc'
      cases hfind : st.commands.find? (fun c => c.command_uuid == cu) with
      | none => rw [hfind] at hc'; exact hc'
      | some b0 =>
        rw [hfind] at hc'
        dsimp only at hc'
        rcases mem_updateFirst hc' with hmem | ⟨b, hb, _, rfl⟩
        · exact hmem
        · rw [applyReport_sent_eq hsent]; exact hb

/-! ## Claim theorems -/

/-- C9: a request to the check-in endpoint or to the command endpoint whose
body is not a parseable configuration document is answered with HTTP 400, and
no Device, EnrollmentToken, or Command state is mutated (the store is returned
untouched). -/
theorem c9_unparseable_body_rejected_without_mutation :
    ∀ (st : StoreState) (now : Nat),
      mdm_checkin st now none = (st, .badRequest) ∧
      mdm_server st now none = (st, .badRequest) :=
  fun _ _ => ⟨rfl, rfl⟩

/-- C2 (code bug): the enrollment-token correlation cannot run.  The claim
describes the query `handle_authenticate` builds (filter on unused tokens with
a recent `last_accessed_at`, not yet linked via `device_udid`, newest first),
but the `EnrollmentToken` model defines neither `last_accessed_at` nor
`device_udid`, so building the query raises `AttributeError`: evaluating the
embedded handler on a store holding a fresh unused token yields HTTP 500 with
the store unchanged — no token is selected and no device identifier is ever
recorded. -/
theorem c2_correlation_query_crashes :
    "last_accessed_at" ∉ enrollmentTokenColumns ∧
    "device_udid" ∉ enrollmentTokenColumns ∧
    mdm_checkin c2Store 120 (some authMsgAAAA) = (c2Store, .serverError) :=
  ⟨by decide, by decide, rfl⟩

/-- C4 (code bug): an `Authenticate` for an unseen UDID does not receive the
empty acknowledgment and does not create a `pending` device: the handler dies
with `AttributeError` (HTTP 500) while building the token-correlation query,
before the device-creation code runs, leaving the store empty. -/
theorem c4_authenticate_crashes_no_device_created :
    mdm_checkin emptyStore 0 (some authMsgAAAA) = (emptyStore, .serverError) ∧
    (mdm_checkin emptyStore 0 (some authMsgAAAA)).1.devices = [] :=
  ⟨rfl, rfl⟩

/-- C3 (code bug): a `TokenUpdate` for an existing device records the push
credentials (hex of the raw token bytes 0xab 0xcd is "abcd"), the push magic
and status `enrolled` — those writes are committed first — but the handler then
raises `AttributeError` (HTTP 500) on `EnrollmentToken.device_udid`, so the
enrollment token is never consumed (`is_used` stays `false`), no install-profile
command is enqueued, and no push attempt is made. -/
theorem c3_token_update_partial_commit :
    (mdm_checkin c3Store 7 (some c3Msg)).2 = .serverError ∧
    (mdm_checkin c3Store 7 (some c3Msg)).1.devices =
      [{ c3Device with push_token := some "abcd", push_magic := some "m1",
                       unlock_token := none, status := "enrolled", last_checkin := 7 }] ∧
    (mdm_checkin c3Store 7 (some c3Msg)).1.tokens = [c3Token] ∧
    (mdm_checkin c3Store 7 (some c3Msg)).1.commands = [] :=
  ⟨rfl, rfl, rfl, rfl⟩

/-- C1 (counterexample): two consecutive `Idle` polls from the same device,
with two pending commands queued and the first still unresolved, leave two
commands of that device in status `sent` at the same instant — the handler
checks only for `pending` rows and never that no `sent` row exists. -/
theorem c1_counterexample_two_sent :
    (mdm_server cxStore 5 (some idlePoll)).2 = .commandResp (.str "payload-a") ∧
    (mdm_server (mdm_server cxStore 5 (some idlePoll)).1 6 (some idlePoll)).2 =
      .commandResp (.str "payload-b") ∧
    ((mdm_server (mdm_server cxStore 5 (some idlePoll)).1 6 (some idlePoll)).1).commands.countP
      (fun c => c.device_id == "dev-1" && c.status == "sent") = 2 :=
  ⟨rfl, rfl, rfl⟩

/-- C7 (counterexample): the both-or-none push-credential invariant is not
preserved by every check-in message: a `TokenUpdate` carrying a `PushMagic` but
no `Token` bytes writes the magic and nulls the token, leaving the device with
exactly one of the two set. -/
theorem c7_counterexample_one_sided_creds :
    pushCredsConsistent c7Store ∧
    ¬ pushCredsConsistent ((mdm_checkin c7Store 3 (some c7BadMsg)).1) := by
  unfold pushCredsConsistent
  refine ⟨by decide, by decide⟩

/-- C5: a `CheckOut` whose UDID names an existing device always leaves that
device with status `removed` and both push credentials null, whatever its prior
status and credentials, and is answered with the empty acknowledgment; token
and command rows are untouched. -/
theorem c5_checkout_removes_and_clears :
    ∀ (st : StoreState) (now : Nat) (msg : CheckinMsg) (u : String) (d : Device),
      msg.MessageType = some "CheckOut" →
      msg.UDID = some u →
      st.devices.find? (fun x => x.udid == u) = some d →
      (mdm_checkin st now (some msg)).2 = .emptyAck ∧
      ((mdm_checkin st now (some msg)).1).devices.find? (fun x => x.udid == u) =
        some { d with status := "removed", push_token := none, push_magic := none } ∧
      ((mdm_checkin st now (some msg)).1).tokens = st.tokens ∧
      ((mdm_checkin st now (some msg)).1).commands = st.commands := by
  intro st now msg u d hmt hu hfind
  have hdu' : d.udid = u := by
    have h := List.find?_some hfind
    simpa using h
  rw [mdm_checkin_dispatch_co st now msg hmt]
  unfold handle_checkout findDevice
  rw [hu]
  dsimp only
  rw [hfind]
  dsimp only
  refine ⟨rfl, ?_, rfl, rfl⟩
  subst hdu'
  refine (find?_updateFirst_same ?_ st.devices).trans ?_
  · exact fun a => rfl
  · rw [hfind]
    rfl

/-- C5 witness: a concrete checkout of the sample device. -/
theorem c5_checkout_witness :
    (mdm_checkin cxStore 9 (some { MessageType := some "CheckOut", UDID := some "UDID-1" })).2 =
      .emptyAck ∧
    ((mdm_checkin cxStore 9
        (some { MessageType := some "CheckOut", UDID := some "UDID-1" })).1).devices.find?
      (fun x => x.udid == "UDID-1") =
        some { cxDevice with status := "removed", push_token := none, push_magic := none } ∧
    ((mdm_checkin cxStore 9
        (some { MessageType := some "CheckOut", UDID := some "UDID-1" })).1).tokens =
      cxStore.tokens ∧
    ((mdm_checkin cxStore 9
        (some { MessageType := some "CheckOut", UDID := some "UDID-1" })).1).commands =
      cxStore.commands :=
  c5_checkout_removes_and_clears cxStore 9 _ "UDID-1" cxDevice rfl rfl rfl

/-- C10: on a poll with status `Idle` or `Acknowledged`, when the oldest
pending command of the device has a null payload, nothing is delivered and
nothing transitions to `sent`: the response is the empty acknowledgment and
the store is exactly the post-report store, whose only `sent` rows already
existed before the request.  This holds even when a newer pending command with
a non-null payload exists (see the witness). -/
theorem c10_null_payload_blocks_delivery :
    ∀ (st : StoreState) (now : Nat) (msg : MDMMsg) (d : Device) (c : MDMCommand),
      findDevice st msg.UDID = some d →
      (msg.Status = some "Idle" ∨ msg.Status = some "Acknowledged") →
      oldestPending (reportPhase (touchCheckin st now msg.UDID) now msg) d.id = some c →
      c.payload = none →
      mdm_server st now (some msg) =
        (reportPhase (touchCheckin st now msg.UDID) now msg, .emptyAck) ∧
      (∀ c' ∈ (reportPhase (touchCheckin st now msg.UDID) now msg).commands,
        c'.status = "sent" → c' ∈ st.commands) := by
  intro st now msg d c hfind hstat hop hnull
  constructor
  · unfold mdm_server
    dsimp only
    rw [hfind]
    unfold deliverPhase
    dsimp only
    have hb : (msg.Status == some "Idle" || msg.Status == some "Acknowledged") = true := by
      rcases hstat with h | h <;> simp [h]
    rw [if_pos hb, hop]
    dsimp only
    rw [hnull]
  · intro c' hc' hsent
    have := reportPhase_sent_mem hc' hsent
    rw [touchCheckin_commands] at this
    exact this

/-- Pending command with a null payload, older than every other row. -/
def c10NullCmd : MDMCommand :=
  { id := "row-n", command_uuid := "N", command_type := "InstallProfile",
    payload := none, status := "pending", created_at := 0, device_id := "dev-1" }

/-- Store with the sample device, the null-payload command, and a newer pending
command with a non-null payload. -/
def c10Store : StoreState := { devices := [cxDevice], commands := [c10NullCmd, cxCmdB] }

/-- C10 witness: with the null-payload command oldest and a newer deliverable
command queued, the poll answers the empty acknowledgment. -/
theorem c10_null_payload_witness :
    mdm_server c10Store 4 (some idlePoll) =
      (reportPhase (touchCheckin c10Store 4 idlePoll.UDID) 4 idlePoll, .emptyAck) ∧
    (∀ c' ∈ (reportPhase (touchCheckin c10Store 4 idlePoll.UDID) 4 idlePoll).commands,
      c'.status = "sent" → c' ∈ c10Store.commands) :=
  c10_null_payload_blocks_delivery c10Store 4 idlePoll cxDevice c10NullCmd rfl (Or.inl rfl)
    rfl rfl

/-- The authenticate handler never changes the store (it dies before any
write). -/
theorem handle_authenticate_fst (st : StoreState) (msg : CheckinMsg) :
    (handle_authenticate st msg).1 = st := rfl

/-- Device rows after a `TokenUpdate` that found its device. -/
theorem handle_token_update_devices (st : StoreState) (now : Nat) (msg : CheckinMsg)
    (d : Device) (hf : findDevice st msg.UDID = some d) :
    (handle_token_update st now msg).1.devices =
      updateFirst (fun x => x.udid == d.udid) (fun x =>
        { x with
            push_magic := msg.PushMagic,
            push_token :=
              match msg.Token with
              | some b => if b.isEmpty then none else some (bytesToHex b)
              | none => none,
            unlock_token := msg.UnlockToken,
            status := "enrolled",
            last_checkin := now }) st.devices := by
  unfold handle_token_update
  rw [hf]
  rfl

/-- A `TokenUpdate` that found no device is a no-op with the empty ack. -/
theorem handle_token_update_none (st : StoreState) (now : Nat) (msg : CheckinMsg)
    (hf : findDevice st msg.UDID = none) :
    handle_token_update st now msg = (st, .emptyAck) := by
  unfold handle_token_update
  rw [hf]

/-- Device rows after a `CheckOut` that found its device. -/
theorem handle_checkout_devices (st : StoreState) (msg : CheckinMsg)
    (d : Device) (hf : findDevice st msg.UDID = some d) :
    (handle_checkout st msg).1.devices =
      updateFirst (fun x => x.udid == d.udid) (fun x =>
        { x with status := "removed", push_token := none, push_magic := none }) st.devices := by
  unfold handle_checkout
  rw [hf]

/-- A `CheckOut` that found no device is a no-op with the empty ack. -/
theorem handle_checkout_none (st : StoreState) (msg : CheckinMsg)
    (hf : findDevice st msg.UDID = none) :
    handle_checkout st msg = (st, .emptyAck) := by
  unfold handle_checkout
  rw [hf]

/-- Balance of push credentials carries over `updateFirst` when the rewrite
preserves it. -/
theorem credsOk_updateFirst {l : List Device} {p : Device → Bool} {f : Device → Device}
    (h : ∀ d ∈ l, d.push_token.isSome = d.push_magic.isSome)
    (hf : ∀ d, d.push_token.isSome = d.push_magic.isSome →
      (f d).push_token.isSome = (f d).push_magic.isSome) :
    ∀ d ∈ updateFirst p f l, d.push_token.isSome = d.push_magic.isSome := by
  intro d hd
  rcases mem_updateFirst hd with hd | ⟨b, hb, _, rfl⟩
  · exact h d hd
  · exact hf b (h b hb)

/-- The check-in touch preserves balanced push credentials. -/
theorem touchCheckin_creds {st : StoreState} {now : Nat} {udid : Option String}
    (h : pushCredsConsistent st) : pushCredsConsistent (touchCheckin st now udid) := by
  unfold pushCredsConsistent at h ⊢
  unfold touchCheckin
  cases hf : findDevice st udid with
  | none => exact h
  | some d =>
    dsimp only
    exact credsOk_updateFirst h (fun b hb => hb)

/-- One protocol request preserves balanced push credentials, provided a parsed
`TokenUpdate` carries a push magic exactly when it carries truthy token
bytes. -/
theorem pushCreds_step {st : StoreState} {r : ProtocolRequest}
    (h : pushCredsConsistent st) (hr : credsBalanced r = true) :
    pushCredsConsistent (runStep st r) := by
  cases r with
  | commandReq now b =>
    cases b with
    | none => exact h
    | some msg =>
      show pushCredsConsistent (mdm_server st now (some msg)).1
      unfold pushCredsConsistent
      rw [mdm_server_devices]
      exact touchCheckin_creds h
  | checkinReq now b =>
    cases b with
    | none => exact h
    | some m =>
      show pushCredsConsistent (mdm_checkin st now (some m)).1
      by_cases h1 : m.MessageType = some "Authenticate"
      · rw [mdm_checkin_dispatch_auth st now m h1, handle_authenticate_fst]
        exact h
      · by_cases h2 : m.MessageType = some "TokenUpdate"
        · rw [mdm_checkin_dispatch_tu st now m h2]
          simp only [credsBalanced, h2] at hr
          have hbal : m.PushMagic.isSome = pyTruthyBytes m.Token := by
            simpa using hr
          unfold pushCredsConsistent
          cases hf : findDevice st m.UDID with
          | none => rw [handle_token_update_none st now m hf]; exact h
          | some d =>
            rw [handle_token_update_devices st now m d hf]
            refine credsOk_updateFirst h (fun b hb => ?_)
            show (match m.Token with
              | some bs => if bs.isEmpty then none else some (bytesToHex bs)
              | none => (none : Option String)).isSome = m.PushMagic.isSome
            rw [hbal]
            cases m.Token with
            | none => rfl
            | some bs =>
              by_cases hbs : bs.isEmpty
              · simp [hbs, pyTruthyBytes]
              · simp [hbs, pyTruthyBytes]
        · by_cases h3 : m.MessageType = some "CheckOut"
          · rw [mdm_checkin_dispatch_co st now m h3]
            unfold pushCredsConsistent
            cases hf : findDevice st m.UDID with
            | none => rw [handle_checkout_none st m hf]; exact h
            | some d =>
              rw [handle_checkout_devices st m d hf]
              exact credsOk_updateFirst h (fun b hb => rfl)
          · have : mdm_checkin st now (some m) = (st, .okNoBody) := by
              unfold mdm_checkin
              dsimp only
              rw [if_neg (by simpa using h1), if_neg (by simpa using h2),
                  if_neg (by simpa using h3)]
            rw [this]
            exact h

/-- C7 (amended): every protocol operation preserves the both-or-none
push-credential invariant, provided each parsed `TokenUpdate` message carries a
push magic exactly when it carries non-empty raw token bytes (which
protocol-conformant `TokenUpdate` messages do); without that proviso a
`TokenUpdate` carrying only one of the two breaks the invariant (see the
counterexample). -/
theorem c7_creds_invariant_preserved :
    ∀ (st : StoreState) (trace : List ProtocolRequest),
      pushCredsConsistent st →
      (∀ r ∈ trace, credsBalanced r = true) →
      pushCredsConsistent (runTrace st trace) := by
  intro st trace h htr
  induction trace generalizing st with
  | nil => exact h
  | cons r rs ih =>
    exact ih (runStep st r) (pushCreds_step h (htr r (List.mem_cons_self _ _)))
      (fun r' hr' => htr r' (List.mem_cons_of_mem _ hr'))

/-- C7 witness: a balanced `TokenUpdate` followed by an idle poll keeps the
sample device's credentials consistent. -/
theorem c7_creds_invariant_witness :
    pushCredsConsistent (runTrace c7Store
      [.checkinReq 5 (some c7GoodMsg), .commandReq 6 (some idlePoll)]) :=
  c7_creds_invariant_preserved c7Store
    [.checkinReq 5 (some c7GoodMsg), .commandReq 6 (some idlePoll)]
    (by unfold pushCredsConsistent; decide) (by decide)

/-- The status-report rewrite never changes the command identifier. -/
theorem applyReport_uuid (now : Nat) (s : Option String) (ec : Option (List String))
    (a : MDMCommand) : (applyReport now s ec a).command_uuid = a.command_uuid := by
  unfold applyReport
  split_ifs <;> rfl

/-- `updateFirst` with a key-preserving rewrite keeps command identifiers
pairwise distinct. -/
theorem distinctUuids_updateFirst {l : List MDMCommand} {p : MDMCommand → Bool}
    {f : MDMCommand → MDMCommand} (hf : ∀ a, (f a).command_uuid = a.command_uuid)
    (h : distinctUuids l) : distinctUuids (updateFirst p f l) := by
  induction l with
  | nil => exact h
  | cons x xs ih =>
    rcases List.pairwise_cons.mp h with ⟨hx, hxs⟩
    by_cases hp : p x
    · simp only [updateFirst, hp, if_pos]
      refine List.pairwise_cons.mpr ⟨?_, hxs⟩
      intro y hy
      rw [hf x]
      exact hx y hy
    · simp only [updateFirst, hp, if_neg, Bool.false_eq_true, not_false_iff]
      refine List.pairwise_cons.mpr ⟨?_, ih hxs⟩
      intro y hy
      rcases mem_updateFirst hy with hy | ⟨b, hb, _, rfl⟩
      · exact hx y hy
      · rw [hf b]
        exact hx b hb

/-- Two rows of a pairwise-distinct command list sharing a command identifier
are the same row. -/
theorem eq_of_distinctUuids {l : List MDMCommand} (h : distinctUuids l)
    {b c : MDMCommand} (hb : b ∈ l) (hc : c ∈ l)
    (he : b.command_uuid = c.command_uuid) : b = c := by
  induction l with
  | nil => simp at hb
  | cons x xs ih =>
    rcases List.pairwise_cons.mp h with ⟨hx, hxs⟩
    rcases List.mem_cons.mp hb with rfl | hb'
    · rcases List.mem_cons.mp hc with rfl | hc'
      · rfl
      · exact absurd he (hx c hc')
    · rcases List.mem_cons.mp hc with rfl | hc'
      · exact absurd he.symm (hx b hb')
      · exact ih hxs hb' hc'

/-- The report phase keeps command identifiers pairwise distinct. -/
theorem reportPhase_distinct {st : StoreState} {now : Nat} {msg : MDMMsg}
    (h : distinctUuids st.commands) : distinctUuids (reportPhase st now msg).commands := by
  unfold reportPhase
  cases msg.CommandUUID with
  | none => exact h
  | some cu =>
    dsimp only
    by_cases he : cu == ""
    · rw [if_pos he]; exact h
    · rw [if_neg he]
      cases hfind : st.commands.find? (fun c => c.command_uuid == cu) with
      | none => exact h
      | some b =>
        dsimp only
        exact distinctUuids_updateFirst (applyReport_uuid now msg.Status msg.ErrorChain) h

/-- C1 (amended): in one command-endpoint call the handler puts at most one
command of the polled device into `sent`, namely the oldest pending one with
its `sent_at` stamped: every `sent` row of the post state either carries the
identifier of a row that was already `sent` before the call, or is exactly the
post-report oldest pending row of the polled device — pending, owned by the
device, with a non-null payload, and no newer than any other pending row —
rewritten to `sent` with `sent_at = now`.  The unamended claim fails because
the handler never checks for an existing `sent` row, so a device that polls
again without resolving its in-flight command is handed a second one (see the
counterexample). -/
theorem c1_per_poll_single_claim :
    ∀ (st : StoreState) (now : Nat) (msg : MDMMsg) (c : MDMCommand),
      distinctUuids st.commands →
      c ∈ (mdm_server st now (some msg)).1.commands →
      c.status = "sent" →
      (∃ c0 ∈ st.commands, c0.command_uuid = c.command_uuid ∧ c0.status = "sent") ∨
      (∃ d c0, findDevice st msg.UDID = some d ∧
        oldestPending (reportPhase (touchCheckin st now msg.UDID) now msg) d.id = some c0 ∧
        c0.status = "pending" ∧ c0.device_id = d.id ∧ c0.payload.isSome = true ∧
        c = { c0 with status := "sent", sent_at := some now } ∧
        (∀ c' ∈ (reportPhase (touchCheckin st now msg.UDID) now msg).commands,
          isPendingFor d.id c' = true → c0.created_at ≤ c'.created_at)) := by
  intro st now msg c hdist hc hsent
  have hmemold : c ∈ (reportPhase (touchCheckin st now msg.UDID) now msg).commands →
      (∃ c0 ∈ st.commands, c0.command_uuid = c.command_uuid ∧ c0.status = "sent") := by
    intro hmem
    have h1 := reportPhase_sent_mem hmem hsent
    rw [touchCheckin_commands] at h1
    exact Or.elim (Or.inl ⟨c, h1, rfl, hsent⟩) id id
  have hdist2 : distinctUuids (reportPhase (touchCheckin st now msg.UDID) now msg).commands := by
    refine reportPhase_distinct ?_
    rw [touchCheckin_commands]
    exact hdist
  revert hc
  unfold mdm_server
  dsimp only
  unfold deliverPhase
  cases hfd : findDevice st msg.UDID with
  | none =>
    intro hc
    exact Or.inl (hmemold hc)
  | some d =>
    dsimp only
    by_cases hb : (msg.Status == some "Idle" || msg.Status == some "Acknowledged") = true
    · rw [if_pos hb]
      cases hop : oldestPending (reportPhase (touchCheckin st now msg.UDID) now msg) d.id with
      | none =>
        intro hc
        exact Or.inl (hmemold hc)
      | some c0 =>
        dsimp only
        cases hpl : c0.payload with
        | none =>
          intro hc
          exact Or.inl (hmemold hc)
        | some p =>
          dsimp only
          intro hc
          rcases mem_updateFirst hc with hmem | ⟨b, hbmem, hbp, rfl⟩
          · exact Or.inl (hmemold hmem)
          · obtain ⟨hc0mem, hc0p, hc0min⟩ := oldestPending_spec hop
            have hbuuid : b.command_uuid = c0.command_uuid := by simpa using hbp
            have hbc0 : b = c0 := eq_of_distinctUuids hdist2 hbmem hc0mem hbuuid
            subst hbc0
            refine Or.inr ⟨d, b, rfl, hop, ?_, ?_, ?_, rfl, hc0min⟩
            · have := hc0p
              unfold isPendingFor at this
              exact of_decide_eq_true (by simpa using (Bool.and_elim_right this))
            · have := hc0p
              unfold isPendingFor at this
              exact of_decide_eq_true (by simpa using (Bool.and_elim_left this))
            · rw [hpl]; rfl
    · rw [if_neg hb]
      intro hc
      exact Or.inl (hmemold hc)

/-- The sample command A as the delivery phase marks it. -/
def cxCmdASent : MDMCommand := { cxCmdA with status := "sent", sent_at := some 5 }

/-- C1 witness: the first idle poll on the sample store claims exactly the
older pending command. -/
theorem c1_per_poll_witness :
    (∃ c0 ∈ cxStore.commands, c0.command_uuid = cxCmdASent.command_uuid ∧ c0.status = "sent") ∨
    (∃ d c0, findDevice cxStore idlePoll.UDID = some d ∧
      oldestPending (reportPhase (touchCheckin cxStore 5 idlePoll.UDID) 5 idlePoll) d.id =
        some c0 ∧
      c0.status = "pending" ∧ c0.device_id = d.id ∧ c0.payload.isSome = true ∧
      cxCmdASent = { c0 with status := "sent", sent_at := some 5 } ∧
      (∀ c' ∈ (reportPhase (touchCheckin cxStore 5 idlePoll.UDID) 5 idlePoll).commands,
        isPendingFor d.id c' = true → c0.created_at ≤ c'.created_at)) :=
  c1_per_poll_single_claim cxStore 5 idlePoll cxCmdASent
    (by refine List.Pairwise.cons ?_ (List.pairwise_singleton _ _)
        intro y hy
        rcases List.mem_singleton.mp hy with rfl
        decide)
    (List.mem_cons_self _ _)
    rfl

/-- Unfolding of the command endpoint on a parsed body. -/
theorem mdm_server_eq_deliver (st : StoreState) (now : Nat) (msg : MDMMsg) :
    mdm_server st now (some msg) =
      deliverPhase (reportPhase (touchCheckin st now msg.UDID) now msg) now
        (findDevice st msg.UDID) msg.Status := rfl

/-- Status report `Acknowledged` on a command row. -/
theorem applyReport_ack (now : Nat) (ec : Option (List String)) (c : MDMCommand) :
    applyReport now (some "Acknowledged") ec c =
      { c with status := "acknowledged", acknowledged_at := some now } := rfl

/-- Status report `Error` with a non-empty error chain on a command row. -/
theorem applyReport_error (now : Nat) (e : String) (es : List String) (c : MDMCommand) :
    applyReport now (some "Error") (some (e :: es)) c =
      { c with status := "failed", error_message := some e } := rfl

/-- Status report `NotNow` on a command row. -/
theorem applyReport_notnow (now : Nat) (ec : Option (List String)) (c : MDMCommand) :
    applyReport now (some "NotNow") ec c = { c with status := "pending" } := rfl

/-- Command rows after a report that found its command. -/
theorem reportPhase_commands_eq {st : StoreState} {now : Nat} {msg : MDMMsg} {cu : String}
    {c : MDMCommand} (hcu : msg.CommandUUID = some cu) (hne : (cu == "") = false)
    (hfind : st.commands.find? (fun x => x.command_uuid == cu) = some c) :
    (reportPhase st now msg).commands =
      updateFirst (fun x => x.command_uuid == cu)
        (applyReport now msg.Status msg.ErrorChain) st.commands := by
  unfold reportPhase
  rw [hcu]
  dsimp only
  rw [if_neg (by simp [hne]), hfind]

/-- Lookup of the reported command after the report phase. -/
theorem reportPhase_find?_eq {st : StoreState} {now : Nat} {msg : MDMMsg} {cu : String}
    {c : MDMCommand} (hcu : msg.CommandUUID = some cu) (hne : (cu == "") = false)
    (hfind : st.commands.find? (fun x => x.command_uuid == cu) = some c) :
    (reportPhase st now msg).commands.find? (fun x => x.command_uuid == cu) =
      some (applyReport now msg.Status msg.ErrorChain c) := by
  rw [reportPhase_commands_eq hcu hne hfind]
  refine (find?_updateFirst_same ?_ st.commands).trans ?_
  · intro a
    rw [applyReport_uuid]
  · rw [hfind]
    rfl

/-- The delivery phase is a no-op for a reported status that is neither `Idle`
nor `Acknowledged`. -/
theorem deliverPhase_not_ready {st2 : StoreState} {now : Nat} {devOpt : Option Device}
    {status : Option String}
    (hb : (status == some "Idle" || status == some "Acknowledged") = false) :
    deliverPhase st2 now devOpt status = (st2, .emptyAck) := by
  unfold deliverPhase
  cases devOpt with
  | none => rfl
  | some d =>
    dsimp only
    rw [if_neg (by simp [hb])]

/-- The delivery phase cannot move a non-pending row: a lookup that hit a row
whose status is not `pending` yields the same row afterwards. -/
theorem deliverPhase_find?_frozen {st2 : StoreState} {now : Nat} {devOpt : Option Device}
    {status : Option String} {q : String} {c : MDMCommand}
    (hdist : distinctUuids st2.commands)
    (hfind : st2.commands.find? (fun x => x.command_uuid == q) = some c)
    (hcs : c.status ≠ "pending") :
    ((deliverPhase st2 now devOpt status).1).commands.find? (fun x => x.command_uuid == q) =
      some c := by
  unfold deliverPhase
  cases devOpt with
  | none => exact hfind
  | some d =>
    dsimp only
    by_cases hb : (status == some "Idle" || status == some "Acknowledged") = true
    · rw [if_pos hb]
      cases hop : oldestPending st2 d.id with
      | none => exact hfind
      | some c0 =>
        dsimp only
        cases hpl : c0.payload with
        | none => exact hfind
        | some p =>
          dsimp only
          obtain ⟨hc0mem, hc0p, _⟩ := oldestPending_spec hop
          have hcq : c.command_uuid = q := by simpa using List.find?_some hfind
          have hcmem : c ∈ st2.commands := List.mem_of_find?_eq_some hfind
          have hc0ne : c0.command_uuid ≠ q := by
            intro he
            have heq : c0 = c :=
              eq_of_distinctUuids hdist hc0mem hcmem (he.trans hcq.symm)
            have hc0pend : c0.status = "pending" := by
              unfold isPendingFor at hc0p
              exact of_decide_eq_true (by simpa using Bool.and_elim_right hc0p)
            rw [heq] at hc0pend
            exact hcs hc0pend
          refine (find?_updateFirst_disjoint ?_ ?_ st2.commands).trans hfind
          · intro a ha
            have ha' : a.command_uuid = c0.command_uuid := by simpa using ha
            simp [ha', hc0ne]
          · intro a ha
            have ha' : a.command_uuid = c0.command_uuid := by simpa using ha
            simp [ha', hc0ne]
    · rw [if_neg hb]
      exact hfind

/-- A report whose body carries no command identifier leaves the store
untouched. -/
theorem reportPhase_none {st : StoreState} {now : Nat} {msg : MDMMsg}
    (hcu : msg.CommandUUID = none) : reportPhase st now msg = st := by
  unfold reportPhase
  rw [hcu]

/-- A row flanked by a pairwise-distinct decomposition appears on neither
side. -/
theorem not_mem_sides_of_distinct {l₁ l₂ : List MDMCommand} {c : MDMCommand}
    (h : distinctUuids (l₁ ++ c :: l₂)) : c ∉ l₁ ∧ c ∉ l₂ := by
  rw [distinctUuids, List.pairwise_append] at h
  obtain ⟨h1, h2, h12⟩ := h
  constructor
  · intro hm
    exact (h12 c hm c (List.mem_cons_self _ _)) rfl
  · intro hm
    rcases List.pairwise_cons.mp h2 with ⟨hx, _⟩
    exact (hx c hm) rfl

/-- Searching a concatenation whose first part fails the predicate. -/
theorem find?_append_of_none {l₁ l₂ : List α} {p : α → Bool}
    (h : ∀ x ∈ l₁, p x = false) : (l₁ ++ l₂).find? p = l₂.find? p := by
  induction l₁ with
  | nil => rfl
  | cons x xs ih =>
    rw [List.cons_append,
        List.find?_cons_of_neg _ (by simp [h x (List.mem_cons_self _ _)])]
    exact ih (fun y hy => h y (List.mem_cons_of_mem _ hy))

/-- C6: for a status report naming a known command (non-empty identifier,
present in the store): `Acknowledged` sets the command to `acknowledged`
stamping `acknowledged_at`; `Error` sets it to `failed` with the error text
taken from the first entry of the non-empty reported error chain; `NotNow`
returns it to `pending`; and a command returned to `pending` by `NotNow` is
the one delivered — and marked `sent` — on the device's next idle poll, when
every other pending command of the device is strictly newer (no older pending
command exists). -/
theorem c6_report_status_and_redelivery :
    ∀ (st : StoreState) (now : Nat) (msg : MDMMsg) (c : MDMCommand),
      distinctUuids st.commands →
      msg.CommandUUID = some c.command_uuid →
      (c.command_uuid == "") = false →
      st.commands.find? (fun x => x.command_uuid == c.command_uuid) = some c →
      (msg.Status = some "Acknowledged" →
        ((mdm_server st now (some msg)).1).commands.find?
            (fun x => x.command_uuid == c.command_uuid) =
          some { c with status := "acknowledged", acknowledged_at := some now }) ∧
      (∀ e es, msg.Status = some "Error" → msg.ErrorChain = some (e :: es) →
        ((mdm_server st now (some msg)).1).commands.find?
            (fun x => x.command_uuid == c.command_uuid) =
          some { c with status := "failed", error_message := some e }) ∧
      (msg.Status = some "NotNow" →
        ((mdm_server st now (some msg)).1).commands.find?
            (fun x => x.command_uuid == c.command_uuid) =
          some { c with status := "pending" }) ∧
      (∀ (d' : Device) (p : PValue) (now2 : Nat) (msg2 : MDMMsg),
        msg.Status = some "NotNow" →
        msg2.Status = some "Idle" →
        msg2.CommandUUID = none →
        findDevice (mdm_server st now (some msg)).1 msg2.UDID = some d' →
        d'.id = c.device_id →
        c.payload = some p →
        (∀ c' ∈ st.commands, isPendingFor c.device_id c' = true →
          c' = c ∨ c.created_at < c'.created_at) →
        (mdm_server (mdm_server st now (some msg)).1 now2 (some msg2)).2 = .commandResp p ∧
        ((mdm_server (mdm_server st now (some msg)).1 now2 (some msg2)).1).commands.find?
            (fun x => x.command_uuid == c.command_uuid) =
          some { c with payload := some p, status := "sent", sent_at := some now2 }) := by
  intro st now msg c hdist hcu hne hfind
  have htc : (touchCheckin st now msg.UDID).commands = st.commands :=
    touchCheckin_commands st now msg.UDID
  have hfind1 : (touchCheckin st now msg.UDID).commands.find?
      (fun x => x.command_uuid == c.command_uuid) = some c := by
    rw [htc]; exact hfind
  have hdist1 : distinctUuids (touchCheckin st now msg.UDID).commands := by
    rw [htc]; exact hdist
  have hdist2 := @reportPhase_distinct (touchCheckin st now msg.UDID) now msg hdist1
  have hfind2 := @reportPhase_find?_eq (touchCheckin st now msg.UDID) now msg
    c.command_uuid c hcu hne hfind1
  refine ⟨?_, ?_, ?_, ?_⟩
  · intro hS
    rw [hS, applyReport_ack] at hfind2
    rw [mdm_server_eq_deliver]
    exact deliverPhase_find?_frozen hdist2 hfind2 (by intro h; simp at h)
  · intro e es hS hEC
    rw [hS, hEC, applyReport_error] at hfind2
    rw [mdm_server_eq_deliver, deliverPhase_not_ready (by simp [hS])]
    exact hfind2
  · intro hS
    rw [hS, applyReport_notnow] at hfind2
    rw [mdm_server_eq_deliver, deliverPhase_not_ready (by simp [hS])]
    exact hfind2
  · intro d' p now2 msg2 hS hS2 hcu2 hfd2 hdid hpay hmin
    have hst' : (mdm_server st now (some msg)).1 =
        reportPhase (touchCheckin st now msg.UDID) now msg := by
      rw [mdm_server_eq_deliver, deliverPhase_not_ready (by simp [hS])]
    obtain ⟨l₁, l₂, hL, hl₁, hU⟩ := updateFirst_decomp
      (applyReport now msg.Status msg.ErrorChain) hfind
    have hcmds2 : (reportPhase (touchCheckin st now msg.UDID) now msg).commands =
        l₁ ++ { c with status := "pending" } :: l₂ := by
      rw [reportPhase_commands_eq hcu hne hfind1, htc, hU, hS, applyReport_notnow]
    have hst'' : mdm_server (mdm_server st now (some msg)).1 now2 (some msg2) =
        deliverPhase (touchCheckin (mdm_server st now (some msg)).1 now2 msg2.UDID) now2
          (findDevice (mdm_server st now (some msg)).1 msg2.UDID) msg2.Status := by
      rw [mdm_server_eq_deliver, reportPhase_none hcu2]
    have htc2 : (touchCheckin (mdm_server st now (some msg)).1 now2 msg2.UDID).commands =
        l₁ ++ { c with status := "pending" } :: l₂ := by
      rw [touchCheckin_commands, hst', hcmds2]
    have hdistL : distinctUuids (l₁ ++ c :: l₂) := by rw [← hL]; exact hdist
    obtain ⟨hnotm1, hnotm2⟩ := not_mem_sides_of_distinct hdistL
    have hop : oldestPending
        (touchCheckin (mdm_server st now (some msg)).1 now2 msg2.UDID) d'.id =
        some { c with status := "pending" } := by
      refine oldestPending_eq_of_strict ?_ ?_ ?_
      · rw [htc2]
        exact List.mem_append_right _ (List.mem_cons_self _ _)
      · simp [isPendingFor, hdid]
      · intro c' hc' hp'
        rw [hdid] at hp'
        rw [htc2] at hc'
        rcases List.mem_append.mp hc' with hmem | hmem
        · have hcm : c' ∈ st.commands := by
            rw [hL]; exact List.mem_append_left _ hmem
          rcases hmin c' hcm hp' with rfl | hlt
          · exact absurd hmem hnotm1
          · exact Or.inr hlt
        · rcases List.mem_cons.mp hmem with rfl | hmem2
          · exact Or.inl rfl
          · have hcm : c' ∈ st.commands := by
              rw [hL]; exact List.mem_append_right _ (List.mem_cons_of_mem _ hmem2)
            rcases hmin c' hcm hp' with rfl | hlt
            · exact absurd hmem2 hnotm2
            · exact Or.inr hlt
    rw [hst'', hfd2]
    unfold deliverPhase
    dsimp only
    rw [if_pos (by simp [hS2]), hop]
    dsimp only
    rw [hpay]
    dsimp only
    refine ⟨rfl, ?_⟩
    refine (find?_updateFirst_same ?_ _).trans ?_
    · intro a
      rfl
    · rw [htc2, find?_append_of_none hl₁, List.find?_cons_of_pos _ (by simp), hpay]
      rfl

/-- Command in flight, previously delivered (status `sent`). -/
def c6Cmd : MDMCommand :=
  { id := "row-c6", command_uuid := "C6", command_type := "InstallProfile",
    payload := some (.str "payload-c6"), status := "sent", created_at := 0,
    sent_at := some 1, device_id := "dev-1" }

/-- Store with the sample device and the in-flight command. -/
def c6Store : StoreState := { devices := [cxDevice], commands := [c6Cmd] }

/-- A `NotNow` report for the in-flight command. -/
def c6NotNow : MDMMsg :=
  { Status := some "NotNow", UDID := some "UDID-1", CommandUUID := some "C6" }

/-- C6 witness: the concrete `NotNow` returns the command to `pending`, and the
next idle poll delivers it again, marking it `sent`. -/
theorem c6_report_status_witness :
    ((mdm_server c6Store 5 (some c6NotNow)).1).commands.find?
        (fun x => x.command_uuid == c6Cmd.command_uuid) =
      some { c6Cmd with status := "pending" } ∧
    (mdm_server (mdm_server c6Store 5 (some c6NotNow)).1 6 (some idlePoll)).2 =
      .commandResp (.str "payload-c6") ∧
    ((mdm_server (mdm_server c6Store 5 (some c6NotNow)).1 6 (some idlePoll)).1).commands.find?
        (fun x => x.command_uuid == c6Cmd.command_uuid) =
      some { c6Cmd with payload := some (.str "payload-c6"), status := "sent",
                        sent_at := some 6 } := by
  have h := c6_report_status_and_redelivery c6Store 5 c6NotNow c6Cmd
    (List.pairwise_singleton _ _) rfl rfl rfl
  have h4 := h.2.2.2 { cxDevice with last_checkin := 5 } (.str "payload-c6") 6 idlePoll
    rfl rfl rfl rfl rfl rfl
    (by intro c' hc' hp'
        rcases List.mem_singleton.mp hc' with rfl
        exact absurd hp' (by decide))
  exact ⟨h.2.2.1 rfl, h4.1, h4.2⟩

/-- C8: the push notifier fails fast — without reaching the network section —
when the push token, the push magic, or the certificate/key pair is missing; a
non-2xx response or a transport error yields failure; and no outcome of the
push call mutates any command row: the store produced by
`queue_restriction_profile` is the same for every push environment and outcome,
namely the input store with exactly one new `pending` install-profile command
appended, whose `command_uuid` equals the `CommandUUID` embedded in its own
built payload. -/
theorem c8_push_notifier_guarded :
    ∀ (env : PushEnv) (outcome : PushOutcome) (pt pm : Option String),
      ((pyTruthyStr pt = false ∨ pyTruthyStr pm = false ∨
          env.certExists = false ∨ env.keyExists = false) →
        send_push_notification env outcome pt pm = ⟨false, false⟩) ∧
      (∀ code, code < 200 ∨ 299 < code →
        (send_push_notification env (.response code) pt pm).success = false) ∧
      ((send_push_notification env .transportError pt pm).success = false) ∧
      (∀ (st : StoreState) (device : Device) (profile : RestrictionProfile)
          (cmdRowId commandUuid profileUuid payloadUuid : String) (now : Nat)
          (env2 : PushEnv) (outcome2 : PushOutcome),
        (queue_restriction_profile st device profile cmdRowId commandUuid profileUuid
            payloadUuid now env outcome).1 =
          (queue_restriction_profile st device profile cmdRowId commandUuid profileUuid
            payloadUuid now env2 outcome2).1 ∧
        (queue_restriction_profile st device profile cmdRowId commandUuid profileUuid
            payloadUuid now env outcome).1.commands =
          st.commands ++
            [{ id := cmdRowId,
               command_uuid := commandUuid,
               command_type := "InstallProfile",
               payload := some (build_install_profile_command commandUuid
                 (build_restriction_profile profile.name
                   (if profile.description == "" then "Managed by " ++ profile.name
                    else profile.description) profile.allowed_bundle_ids profileUuid
                   payloadUuid)),
               status := "pending", created_at := now, sent_at := none,
               acknowledged_at := none, error_message := none,
               device_id := device.id }]) := by
  intro env outcome pt pm
  refine ⟨?_, ?_, ?_, ?_⟩
  · intro h
    unfold send_push_notification
    split_ifs <;> first | rfl | (exfalso; simp_all)
  · intro code hcode
    have hne : code ≠ 200 := by omega
    unfold send_push_notification
    split_ifs <;> first | rfl | simp [hne]
  · unfold send_push_notification
    split_ifs <;> rfl
  · intro st device profile cmdRowId commandUuid profileUuid payloadUuid now env2 outcome2
    exact ⟨rfl, rfl⟩

/-- C8 witness: missing certificate fails fast even on a would-be 200; HTTP 410
and transport errors fail; and the queued store is identical across push
environments and outcomes. -/
theorem c8_push_notifier_witness :
    send_push_notification ⟨false, true⟩ (.response 200) (some "t") (some "m") =
      ⟨false, false⟩ ∧
    (send_push_notification ⟨true, true⟩ (.response 410) (some "t") (some "m")).success =
      false ∧
    (send_push_notification ⟨true, true⟩ .transportError (some "t") (some "m")).success =
      false ∧
    (queue_restriction_profile emptyStore c8Device c8Profile "row-8" "CMD-8" "PU-8" "RU-8" 9
        ⟨true, true⟩ (.response 200)).1 =
      (queue_restriction_profile emptyStore c8Device c8Profile "row-8" "CMD-8" "PU-8" "RU-8" 9
        ⟨false, false⟩ .transportError).1 := by
  refine ⟨?_, ?_, ?_, ?_⟩
  · exact (c8_push_notifier_guarded ⟨false, true⟩ (.response 200) (some "t") (some "m")).1
      (Or.inr (Or.inr (Or.inl rfl)))
  · exact (c8_push_notifier_guarded ⟨true, true⟩ (.response 410) (some "t") (some "m")).2.1
      410 (Or.inr (by omega))
  · exact (c8_push_notifier_guarded ⟨true, true⟩ .transportError (some "t") (some "m")).2.2.1
  · exact ((c8_push_notifier_guarded ⟨true, true⟩ (.response 200) (some "t")
      (some "m")).2.2.2 emptyStore c8Device c8Profile "row-8" "CMD-8" "PU-8" "RU-8" 9
      ⟨false, false⟩ .transportError).1
